import Mathlib

/-
Verification development for the OR_Tools repository.

The repository contains three solver layers:
 - src/cargo_optimization_pulp.py and src/new_look.py: an exact 0/1
   assignment program (function optimize_pulp) built with PuLP;
 - src/fleet_vrp_gradio_app.py and src/vrp_gradio_app.py: an OR-Tools
   routing model with a capacity dimension (function solve_vrp) and a
   reporting function (print_solution) that computes per-arc fuel cost;
 - a metaheuristic searcher described in the specification but absent
   from src/ (modelled from the spec below).

Conventions of the embedding:
 - demands, distances and capacities are embedded as natural numbers,
   following the specification (exact integers, no floating tolerance);
   the load factor and fuel figures are embedded as rationals;
 - the external MIP solver invoked by prob.solve() is modelled by a
   deterministic oracle; theorems about the returned assignment take the
   hypothesis that the oracle returned an optimal feasible valuation,
   which is the documented contract of an exact MIP solver on the
   embedded program;
 - the OR-Tools capacity dimension is modelled by the constraint set
   installed by AddDimensionWithVehicleCapacity: consecutive cumul
   variables differ by the demand of the source node (slack 0), every
   cumul lies between 0 and the vehicle capacity, and the start cumul is
   pinned by SetValue.
-/

namespace CargoPulp

/-- city_names from src/cargo_optimization_pulp.py line 5 (same list in
src/new_look.py line 5). -/
def city_names : Fin 5 → String :=
  !["Johannesburg", "Pretoria", "Bloemfontein", "Nelspruit", "Polokwane"]

/-- distances_to_durban from src/cargo_optimization_pulp.py line 6:
distances from Durban to each inland city, in kilometers. -/
def distances_to_durban : Fin 5 → ℕ := ![568, 635, 569, 330, 392]

/-- strip of a Python string entry: leading and trailing whitespace
removed (models c.strip() on line 10). -/
def stripChars (l : List Char) : List Char :=
  ((l.dropWhile Char.isWhitespace).reverse.dropWhile Char.isWhitespace).reverse

/-- digitsToNat l parses a nonempty all-digit character list as a decimal
natural number, and fails otherwise; models int(c) on line 10 for the
nonnegative integer literals the capacity box carries (a malformed entry
makes int() raise, modelled as none). -/
def digitsToNat (l : List Char) : Option ℕ :=
  if l = [] then none
  else l.foldl (fun acc c => match acc with
    | none => none
    | some n => if c.isDigit then some (n * 10 + (c.toNat - 48)) else none) (some 0)

/-- parseCaps models line 10 of src/cargo_optimization_pulp.py (line 14 of
src/new_look.py): the capacity string is split on commas, entries are
stripped, empty entries are dropped, the rest are parsed as integers;
none models the exception path of int(). -/
def parseCaps (s : String) : Option (List ℕ) :=
  (((s.data.splitOn ',').map stripChars).filter (fun c => c ≠ [])).mapM digitsToNat

/-- coverage constraint family City_j_Coverage, lines 25-26: each city is
picked by exactly one vehicle (the sum of the binary variables over the
vehicles equals 1). -/
abbrev coverage (nv : ℕ) (x : Fin nv → Fin 5 → Bool) : Prop :=
  ∀ j : Fin 5, (Finset.univ.sum fun i : Fin nv => if x i j then (1 : ℕ) else 0) = 1

/-- load assigned to vehicle i: the sum of cargo over the cities whose
binary variable is set for vehicle i (the left side of line 30). -/
abbrev loadOf (cargo : Fin 5 → ℕ) (nv : ℕ) (x : Fin nv → Fin 5 → Bool) (i : Fin nv) : ℕ :=
  Finset.univ.sum fun j : Fin 5 => if x i j then cargo j else 0

/-- capacity constraint family Capacity_Vehicle_i, lines 29-30. -/
abbrev capacityOk (cargo : Fin 5 → ℕ) (caps : List ℕ)
    (x : Fin caps.length → Fin 5 → Bool) : Prop :=
  ∀ i : Fin caps.length, loadOf cargo caps.length x i ≤ caps.get i

/-- cargo-exactness constraint family Cargo_Exact_Pickup_City_j, lines
33-34: the total picked up from each city equals its cargo. -/
abbrev cargoExact (cargo : Fin 5 → ℕ) (nv : ℕ) (x : Fin nv → Fin 5 → Bool) : Prop :=
  ∀ j : Fin 5, (Finset.univ.sum fun i : Fin nv => if x i j then cargo j else 0) = cargo j

/-- Feasible valuation of the binary program built by optimize_pulp:
all three installed constraint families hold. -/
abbrev Feasible (cargo : Fin 5 → ℕ) (caps : List ℕ)
    (x : Fin caps.length → Fin 5 → Bool) : Prop :=
  coverage caps.length x ∧ capacityOk cargo caps x ∧ cargoExact cargo caps.length x

/-- FeasibleNoExact drops the Cargo_Exact_Pickup family and keeps the
other two constraint families (used to compare the two programs). -/
abbrev FeasibleNoExact (cargo : Fin 5 → ℕ) (caps : List ℕ)
    (x : Fin caps.length → Fin 5 → Bool) : Prop :=
  coverage caps.length x ∧ capacityOk cargo caps x

/-- objective Total_Distance of line 22: the sum of
distances_to_durban over the assigned vehicle-city pairs. -/
abbrev objective (nv : ℕ) (x : Fin nv → Fin 5 → Bool) : ℕ :=
  Finset.univ.sum fun i : Fin nv =>
    Finset.univ.sum fun j : Fin 5 => if x i j then distances_to_durban j else 0

/-- IsOptimal states that a valuation is feasible and of minimal
objective: the contract of the exact solver invoked by prob.solve() on a
feasible program. -/
abbrev IsOptimal (cargo : Fin 5 → ℕ) (caps : List ℕ)
    (x : Fin caps.length → Fin 5 → Bool) : Prop :=
  Feasible cargo caps x ∧
    ∀ y : Fin caps.length → Fin 5 → Bool, Feasible cargo caps y →
      objective caps.length x ≤ objective caps.length y

/-- specAssignedDistance follows the words of the specification, not the
code: the sum, over assigned (vehicle, city) pairs, of the distance from
the depot to the city. Compared with objective in the theorems. -/
def specAssignedDistance (nv : ℕ) (x : Fin nv → Fin 5 → Bool) : ℕ :=
  ((Finset.univ ×ˢ Finset.univ : Finset (Fin nv × Fin 5)).filter
      (fun p => x p.1 p.2)).sum fun p => distances_to_durban p.2

/-- vehicle_route of line 43: the cities whose variable has value 1 for
vehicle i, in city order. -/
def vehicleRoute (nv : ℕ) (x : Fin nv → Fin 5 → Bool) (i : Fin nv) : List (Fin 5) :=
  (List.finRange 5).filter (fun j => x i j)

/-- vehicle_cargo of line 45. -/
def vehicleCargoOf (cargo : Fin 5 → ℕ) (nv : ℕ) (x : Fin nv → Fin 5 → Bool)
    (i : Fin nv) : ℕ :=
  ((vehicleRoute nv x i).map cargo).sum

/-- route_distance of line 46. -/
def routeDistanceOf (nv : ℕ) (x : Fin nv → Fin 5 → Bool) (i : Fin nv) : ℕ :=
  ((vehicleRoute nv x i).map distances_to_durban).sum

/-- one vehicle line of the result string, line 47. -/
def vehicleLine (cargo : Fin 5 → ℕ) (nv : ℕ) (x : Fin nv → Fin 5 → Bool)
    (i : Fin nv) : String :=
  "Vehicle " ++ toString (i.val + 1) ++ " picks up cargo from " ++
    String.intercalate ", " ((vehicleRoute nv x i).map city_names) ++
    " and collects " ++ toString (vehicleCargoOf cargo nv x i) ++ " units.\n"

/-- body of the result string: the loop of lines 42-48 skips vehicles
with an empty route. -/
def resultBody (cargo : Fin 5 → ℕ) (nv : ℕ) (x : Fin nv → Fin 5 → Bool) : String :=
  String.join ((List.finRange nv).map fun i =>
    if vehicleRoute nv x i = [] then "" else vehicleLine cargo nv x i)

/-- total_distance accumulated by the loop of lines 42-48: vehicles with
an empty route contribute nothing. -/
def reportedTotalDistance (nv : ℕ) (x : Fin nv → Fin 5 → Bool) : ℕ :=
  ((List.finRange nv).map fun i =>
    if vehicleRoute nv x i = [] then 0 else routeDistanceOf nv x i).sum

/-- result string returned by optimize_pulp, lines 40-51: the vehicle
lines followed by the total distance line. There is no other return path
and prob.status is never inspected. -/
def buildResult (cargo : Fin 5 → ℕ) (nv : ℕ) (x : Fin nv → Fin 5 → Bool) : String :=
  resultBody cargo nv x ++
    ("\nTotal distance traveled: " ++ toString (reportedTotalDistance nv x) ++ " km")

/-- PulpSolver is the oracle standing for prob.solve() together with the
extraction pulp.value(x[i, j]) == 1 of lines 43-46: a deterministic
function of the data that determines the program (the cargo vector and
the parsed capacities; the priorities play no part in the program). -/
def PulpSolver : Type :=
  (cargo : Fin 5 → ℕ) → (caps : List ℕ) → (Fin caps.length → Fin 5 → Bool)

/-- optimize_pulp from src/cargo_optimization_pulp.py lines 8-51: parse
the capacity string, build and solve the program, format the result.
none models the exception raised by int() on a malformed capacity entry.
The priorities argument is received (line 8) and never read. -/
def optimize_pulp (cargo : Fin 5 → ℕ) (priorities : Fin 5 → ℤ)
    (vehicle_capacities : String) (solver : PulpSolver) : Option String :=
  (parseCaps vehicle_capacities).map fun caps =>
    buildResult cargo caps.length (solver cargo caps)

/-- one vehicle line of the markdown result of src/new_look.py line 51. -/
def vehicleLineMd (cargo : Fin 5 → ℕ) (nv : ℕ) (x : Fin nv → Fin 5 → Bool)
    (i : Fin nv) : String :=
  "**Vehicle " ++ toString (i.val + 1) ++ "** picks up cargo from **" ++
    String.intercalate ", " ((vehicleRoute nv x i).map city_names) ++
    "** and collects **" ++ toString (vehicleCargoOf cargo nv x i) ++ " units**.\n\n"

/-- markdown result string of src/new_look.py lines 44-55. -/
def buildResultMd (cargo : Fin 5 → ℕ) (nv : ℕ) (x : Fin nv → Fin 5 → Bool) : String :=
  String.join ((List.finRange nv).map fun i =>
    if vehicleRoute nv x i = [] then "" else vehicleLineMd cargo nv x i) ++
    ("**Total distance traveled:** " ++ toString (reportedTotalDistance nv x) ++ " km")

/-- optimize_pulp from src/new_look.py lines 8-55: the cargo and priority
columns are read off the dataframe (lines 10-11, a row being city name,
cargo, priority); the Priority column is extracted and never used. -/
def optimize_pulp_df (dataframe : Fin 5 → String × ℕ × ℤ)
    (vehicle_capacities : String) (solver : PulpSolver) : Option String :=
  let cargo : Fin 5 → ℕ := fun j => (dataframe j).2.1
  (parseCaps vehicle_capacities).map fun caps =>
    buildResultMd cargo caps.length (solver cargo caps)

/-- withPriorities replaces the Priority column of a dataframe, keeping
the City and Cargo columns. -/
def withPriorities (dataframe : Fin 5 → String × ℕ × ℤ) (q : Fin 5 → ℤ) :
    Fin 5 → String × ℕ × ℤ :=
  fun j => ((dataframe j).1, (dataframe j).2.1, q j)

end CargoPulp

namespace FleetVrp

/-- distance_matrix from src/fleet_vrp_gradio_app.py lines 75-81 (the
same matrix appears in src/vrp_gradio_app.py lines 40-46); node 0 is the
Durban depot. -/
def distance_matrix : Fin 5 → Fin 5 → ℕ :=
  ![![0, 568, 634, 569, 392],
    ![568, 0, 121, 595, 100],
    ![634, 121, 0, 712, 216],
    ![569, 595, 712, 0, 497],
    ![392, 100, 216, 497, 0]]

/-- fleetDemands models line 83: the depot demand is replaced by 0 and
every other demand is negated, deliveries decreasing the load. -/
def fleetDemands (demands : Fin 5 → ℕ) : Fin 5 → ℤ :=
  fun n => if n = 0 then 0 else -(demands n : ℤ)

/-- loadTrace start dem stops lists the value of the capacity-dimension
cumul variable at each node of the path depot :: stops ++ end-depot: the
start value, then at each node the previous value plus the demand of the
previous node (slack 0), as installed by AddDimensionWithVehicleCapacity
with the unary demand callback, lines 110-121. -/
def loadTrace (start : ℤ) (dem : Fin 5 → ℤ) (stops : List (Fin 5)) : List ℤ :=
  List.scanl (fun c n => c + dem n) start ((0 : Fin 5) :: stops)

/-- VehicleRoute is one route of a returned routing solution: the ordered
non-depot stop sequence of a vehicle, and the cumul values the solver
assigned along depot :: stops ++ end-depot. -/
structure VehicleRoute where
  stops : List (Fin 5)
  cumul : List ℤ

/-- DimValid start cap dem r collects the constraints the Capacity
dimension imposes on a route of every returned solution
(src/fleet_vrp_gradio_app.py lines 109-128): one cumul per node of
depot :: stops ++ end-depot; the start cumul pinned by SetValue
(line 128, and fixed to 0 by the True flag in src/vrp_gradio_app.py
line 82); consecutive cumuls differing by the demand of the source node
(slack 0); and every cumul between 0 and the vehicle capacity. -/
abbrev DimValid (start cap : ℤ) (dem : Fin 5 → ℤ) (r : VehicleRoute) : Prop :=
  r.cumul.length = r.stops.length + 2 ∧
  r.cumul.getD 0 0 = start ∧
  (∀ k, k < r.stops.length + 1 →
    r.cumul.getD (k + 1) 0 = r.cumul.getD k 0 + dem (((0 : Fin 5) :: r.stops).getD k 0)) ∧
  (∀ c ∈ r.cumul, 0 ≤ c ∧ c ≤ cap)

/-- fuel cost of one arc, lines 35 and 48 of
src/fleet_vrp_gradio_app.py: distance times (1 + load_factor times the
current value of route_load). -/
def fuelArc (load_factor : ℚ) (d : ℕ) (load : ℤ) : ℚ :=
  (d : ℚ) * (1 + load_factor * (load : ℚ))

/-- routeFuelCode lf dem prev c stops is the route_fuel accumulated by
print_solution (src/fleet_vrp_gradio_app.py lines 18-52) over the rest of
a route: prev is the node the vehicle currently stands at, c the value of
the route_load variable there (the cumul of prev), and stops the
remaining non-depot stops. Each arc out of prev is charged with the
still-unupdated route_load, which is then set to the cumul of the next
node (cumul prev plus demand of prev); the final arc back to the depot is
charged the same way (lines 41-49). -/
def routeFuelCode (lf : ℚ) (dem : Fin 5 → ℤ) : Fin 5 → ℤ → List (Fin 5) → ℚ
  | prev, c, [] => fuelArc lf (distance_matrix prev 0) c
  | prev, c, n :: rest =>
      fuelArc lf (distance_matrix prev n) c + routeFuelCode lf dem n (c + dem prev) rest

/-- routeFuelClaim follows the words of the specification, not the code:
each arc is charged with the load before the delivery at the destination
of the arc is applied, that is the cumul of the destination node, which
equals the cumul of the source plus the demand of the source. -/
def routeFuelClaim (lf : ℚ) (dem : Fin 5 → ℤ) : Fin 5 → ℤ → List (Fin 5) → ℚ
  | prev, c, [] => fuelArc lf (distance_matrix prev 0) (c + dem prev)
  | prev, c, n :: rest =>
      fuelArc lf (distance_matrix prev n) (c + dem prev) +
        routeFuelClaim lf dem n (c + dem prev) rest

/-- routeFuelArcSum restates the fuel total as an explicit sum over the
arcs of the route: the list of arcs pairs each node of
depot :: stops with its successor in stops ++ end-depot, and attaches the
cumul value at the arc source; each arc contributes distance times
(1 + lf times the source cumul). -/
def routeFuelArcSum (lf : ℚ) (dem : Fin 5 → ℤ) (start : ℤ) (stops : List (Fin 5)) : ℚ :=
  ((((0 : Fin 5) :: stops).zip ((stops ++ [(0 : Fin 5)]).zip
      (List.scanl (fun c n => c + dem n) start ((0 : Fin 5) :: stops)))).map
    (fun a => fuelArc lf (distance_matrix a.1 a.2.1) a.2.2)).sum

/-- SolveOutcome distinguishes the three return paths of solve_vrp: a
formatted solution string, the no-solution branch, and a caught Python
exception with its message. -/
inductive SolveOutcome where
  | success (s : String)
  | noSolution
  | pythonError (msg : String)

/-- solve_vrp_result models the return value of solve_vrp in
src/fleet_vrp_gradio_app.py lines 141-147: the formatted solution, or one
of the two failure strings. -/
def solve_vrp_result : SolveOutcome → String
  | .success s => s
  | .noSolution => "No solution found. Please check the inputs and constraints."
  | .pythonError e => "An error occurred: " ++ e

/-- solve_vrp_result_single models the return value of solve_vrp in
src/vrp_gradio_app.py lines 93-99. -/
def solve_vrp_result_single : SolveOutcome → String
  | .success s => s
  | .noSolution =>
      "No solution found. Please ensure the total demands do not exceed the vehicle capacity."
  | .pythonError e => "An error occurred: " ++ e

end FleetVrp

namespace Heur

/-- Modelled from the spec: the Metaheuristic Route Searcher of section
4.3 is absent from src/; this namespace models it from the words of the
specification. lcg is the pseudo-random source standing for the fixed
seed the spec requires for reproducibility. -/
def lcg (s : ℕ) : ℕ := (s * 1103515245 + 12345) % 2147483648

/-- Modelled from the spec: exchange of the entries at two positions of a
permutation array; out-of-range positions leave the array unchanged. -/
def swapPositions (l : List ℕ) (a b : ℕ) : List ℕ :=
  if h : a < l.length ∧ b < l.length then
    (l.set a (l.get ⟨b, h.2⟩)).set b (l.get ⟨a, h.1⟩)
  else l

/-- Modelled from the spec: mutation is a swap of two random positions. -/
def mutateOnce (s : ℕ) (l : List ℕ) : List ℕ :=
  swapPositions l (lcg s % l.length) (lcg (lcg s) % l.length)

/-- Modelled from the spec: a mutation is applied with probability
mutationRate (in the unit interval), drawn from the random source. -/
def maybeMutate (rate : ℚ) (s : ℕ) (l : List ℕ) : List ℕ :=
  if ((lcg s % 1000 : ℕ) : ℚ) < rate * 1000 then mutateOnce (lcg (lcg s)) l else l

/-- Modelled from the spec: the initial population of random
permutations, produced by randomly perturbing the city order. -/
def initPopulation : ℕ → ℕ → List ℕ → List (List ℕ)
  | 0, _, _ => []
  | n + 1, s, base => mutateOnce s base :: initPopulation n (lcg s) base

/-- Modelled from the spec: the fixed tournament size of the survivor
selection. -/
def tournamentSize : ℕ := 3

/-- Modelled from the spec: order-preserving recombination of two parent
permutations: a random-length initial segment of the first parent is
kept, and the remaining cities follow in the relative order they appear
in the second parent. -/
def orderCrossover (s : ℕ) (p1 p2 : List ℕ) : List ℕ :=
  let k := lcg s % (p1.length + 1)
  p1.take k ++ p2.diff (p1.take k)

/-- Modelled from the spec: one offspring: the current individual and a
random mate drawn from the population are recombined by the
order-preserving crossover with probability crossoverRate (else the
first parent is copied), and the child is then mutated with probability
mutationRate. -/
def offspringOf (pop : List (List ℕ)) (crossRate mutRate : ℚ) (s : ℕ)
    (p1 : List ℕ) : List ℕ :=
  let p2 := pop.getD (lcg s % pop.length) p1
  let child := if ((lcg (lcg s) % 1000 : ℕ) : ℚ) < crossRate * 1000
    then orderCrossover (lcg (lcg (lcg s))) p1 p2 else p1
  maybeMutate mutRate (lcg (lcg (lcg (lcg s)))) child

/-- Modelled from the spec: the offspring of one generation, one per
individual of the population. -/
def offspringList (pop : List (List ℕ)) (crossRate mutRate : ℚ) :
    ℕ → List (List ℕ) → List (List ℕ)
  | _, [] => []
  | s, p :: rest =>
      offspringOf pop crossRate mutRate s p ::
        offspringList pop crossRate mutRate (lcg s) rest

/-- Modelled from the spec: a tournament sample of the given size drawn
from the pool with the random source. -/
def tournamentSample (pool : List (List ℕ)) : ℕ → ℕ → List (List ℕ)
  | 0, _ => []
  | t + 1, s => pool.getD (lcg s % pool.length) [] :: tournamentSample pool t (lcg s)

/-- Modelled from the spec: tournament selection: the fittest member of a
random sample of fixed tournament size. -/
def tournament (fit : List ℕ → ℕ) (pool : List (List ℕ)) (s : ℕ) : List ℕ :=
  ((tournamentSample pool tournamentSize s).argmin fit).getD (pool.headD [])

/-- Modelled from the spec: the survivors of a generation: the given
number of tournaments over the merged pool. -/
def selectSurvivors (fit : List ℕ → ℕ) : ℕ → ℕ → List (List ℕ) → List (List ℕ)
  | 0, _, _ => []
  | n + 1, s, pool => tournament fit pool s :: selectSurvivors fit n (lcg s) pool

/-- Modelled from the spec: one generation: crossover and mutation
produce the offspring, and tournament selection over the merged pool of
parents and offspring produces a next generation of the same size. -/
def nextGeneration (fit : List ℕ → ℕ) (crossRate mutRate : ℚ) (s : ℕ)
    (pop : List (List ℕ)) : List (List ℕ) :=
  selectSurvivors fit pop.length (lcg s)
    (pop ++ offspringList pop crossRate mutRate (lcg (lcg s)) pop)

/-- Modelled from the spec: the better of the best individual seen so far
and a candidate best of the new generation. -/
def betterBest (fit : List ℕ → ℕ) (best : List ℕ) : Option (List ℕ) → List ℕ
  | none => best
  | some m => if fit m ≤ fit best then m else best

/-- Modelled from the spec: the evolutionary loop terminates after a
fixed generation count, tracking the best individual seen over all
generations. -/
def evolveBest (fit : List ℕ → ℕ) (crossRate mutRate : ℚ) :
    ℕ → ℕ → List (List ℕ) → List ℕ → List ℕ
  | 0, _, _, best => best
  | g + 1, s, pop, best =>
      let pop2 := nextGeneration fit crossRate mutRate s pop
      evolveBest fit crossRate mutRate g (lcg s) pop2
        (betterBest fit best (pop2.argmin fit))

/-- Modelled from the spec: greedy filling of one vehicle: cities are
taken in permutation order while the next demand still fits the
capacity; the first city that does not fit, and everything after it, is
handed to the next vehicle. -/
def fillVehicle (demand : ℕ → ℕ) (cap : ℕ) : ℕ → List ℕ → List ℕ × List ℕ
  | _, [] => ([], [])
  | load, c :: rest =>
      if load + demand c ≤ cap then
        let p := fillVehicle demand cap (load + demand c) rest
        (c :: p.1, p.2)
      else ([], c :: rest)

/-- Modelled from the spec: the decode of a permutation walks the
vehicles in index order, never revisiting a vehicle once advanced past;
cities remaining when the vehicles are exhausted are left unserved. -/
def decodeGreedy (demand : ℕ → ℕ) : List ℕ → List ℕ → List (List ℕ) × List ℕ
  | [], cities => ([], cities)
  | cap :: caps, cities =>
      let f := fillVehicle demand cap 0 cities
      let r := decodeGreedy demand caps f.2
      (f.1 :: r.1, r.2)

/-- HeurInstance is the problem model the metaheuristic reads: the
non-depot city ids, the demand per city, the depot round-trip distance
per city, and the vehicle capacities. -/
structure HeurInstance where
  cities : List ℕ
  demand : ℕ → ℕ
  depotDistance : ℕ → ℕ
  caps : List ℕ

/-- Modelled from the spec: fitness is the decoded total distance, each
stop charged its independent depot round-trip distance, plus a large
fixed penalty for each city the decode leaves unserved. -/
def fitness (inst : HeurInstance) (perm : List ℕ) : ℕ :=
  let d := decodeGreedy inst.demand inst.caps perm
  (d.1.flatten.map inst.depotDistance).sum + 1000000 * d.2.length

/-- HeurSolution is the solution schema the metaheuristic populates: the
per-vehicle routes, the unserved-cities annotation, and the total
distance. -/
structure HeurSolution where
  routes : List (List ℕ)
  unserved : List ℕ
  totalDistance : ℕ

/-- Modelled from the spec: solveHeuristic builds the initial population,
runs the evolutionary loop (crossover, mutation, tournament selection)
for the given generation count, decodes the best individual seen, and
always returns a solution whose unserved field flags the cities the
decode could not place. -/
def solveHeuristic (inst : HeurInstance) (populationSize generations : ℕ)
    (crossoverRate mutationRate : ℚ) (seed : ℕ) : HeurSolution :=
  let pop := initPopulation populationSize seed inst.cities
  let best0 := (pop.argmin (fitness inst)).getD inst.cities
  let best := evolveBest (fitness inst) crossoverRate mutationRate
    generations (lcg seed) pop best0
  let d := decodeGreedy inst.demand inst.caps best
  { routes := d.1
    unserved := d.2
    totalDistance := (d.1.flatten.map inst.depotDistance).sum }

end Heur

namespace CargoPulp

theorem exists_unique_of_coverage {nv : ℕ} {x : Fin nv → Fin 5 → Bool}
    (h : coverage nv x) (j : Fin 5) : ∃! i : Fin nv, x i j = true := by
  have hc := h j
  rw [Finset.sum_boole, Nat.cast_id, Finset.card_eq_one] at hc
  obtain ⟨a, ha⟩ := hc
  refine ⟨a, ?_, ?_⟩
  · have : a ∈ Finset.univ.filter fun i => x i j = true := by
      rw [ha]; exact Finset.mem_singleton_self a
    exact (Finset.mem_filter.mp this).2
  · intro b hb
    have : b ∈ Finset.univ.filter fun i => x i j = true :=
      Finset.mem_filter.mpr ⟨Finset.mem_univ b, hb⟩
    rw [ha] at this
    exact Finset.mem_singleton.mp this

theorem specAssignedDistance_eq_objective (nv : ℕ) (x : Fin nv → Fin 5 → Bool) :
    specAssignedDistance nv x = objective nv x := by
  unfold specAssignedDistance
  rw [Finset.sum_filter, Finset.sum_product]

theorem sum_map_filter_eq_sum_ite (p : Fin 5 → Bool) (f : Fin 5 → ℕ) :
    ∀ l : List (Fin 5),
      ((l.filter p).map f).sum = (l.map fun j => if p j then f j else 0).sum := by
  intro l
  induction l with
  | nil => rfl
  | cons a t ih => by_cases hp : p a <;> simp [hp, ih]

theorem routeDistanceOf_eq (nv : ℕ) (x : Fin nv → Fin 5 → Bool) (i : Fin nv) :
    routeDistanceOf nv x i =
      Finset.univ.sum fun j : Fin 5 => if x i j then distances_to_durban j else 0 := by
  rw [Fin.sum_univ_def]
  exact sum_map_filter_eq_sum_ite _ _ _

theorem reportedTotalDistance_eq_objective (nv : ℕ) (x : Fin nv → Fin 5 → Bool) :
    reportedTotalDistance nv x = objective nv x := by
  unfold reportedTotalDistance
  have hpt : ∀ i : Fin nv,
      (if vehicleRoute nv x i = [] then 0 else routeDistanceOf nv x i)
        = routeDistanceOf nv x i := by
    intro i
    by_cases hr : vehicleRoute nv x i = []
    · simp [hr, routeDistanceOf]
    · simp [hr]
  calc ((List.finRange nv).map fun i =>
          if vehicleRoute nv x i = [] then 0 else routeDistanceOf nv x i).sum
      = ((List.finRange nv).map fun i => routeDistanceOf nv x i).sum := by
        exact congrArg List.sum (List.map_congr_left fun i _ => hpt i)
    _ = Finset.univ.sum fun i : Fin nv => routeDistanceOf nv x i := by
        rw [Fin.sum_univ_def]
    _ = objective nv x := Finset.sum_congr rfl fun i _ => routeDistanceOf_eq nv x i

theorem coverage_imp_cargoExact (cargo : Fin 5 → ℕ) {nv : ℕ}
    {x : Fin nv → Fin 5 → Bool} (h : coverage nv x) : cargoExact cargo nv x := by
  intro j
  have hsplit : (Finset.univ.sum fun i : Fin nv => if x i j then cargo j else 0)
      = cargo j * Finset.univ.sum fun i : Fin nv => if x i j then 1 else 0 := by
    rw [Finset.mul_sum]
    exact Finset.sum_congr rfl fun i _ => by by_cases hx : x i j <;> simp [hx]
  rw [hsplit, h j, mul_one]

end CargoPulp

open CargoPulp FleetVrp Heur

/-- C1: for a feasible instance, the assignment returned by the exact
solver optimize_pulp (modelled as an optimal feasible valuation of the
embedded binary program) assigns every city to exactly one vehicle, and
the total demand assigned to each vehicle is at most that vehicle
capacity. -/
theorem c1_exact_solver_coverage_and_capacity
    (cargo : Fin 5 → ℕ) (caps : List ℕ) (x : Fin caps.length → Fin 5 → Bool)
    (hx : IsOptimal cargo caps x) :
    (∀ j : Fin 5, ∃! i : Fin caps.length, x i j = true) ∧
    (∀ i : Fin caps.length, loadOf cargo caps.length x i ≤ caps.get i) :=
  ⟨fun j => exists_unique_of_coverage hx.1.1 j, hx.1.2.1⟩

/-- C1 witness: a concrete feasible instance (one vehicle of capacity 14
and the default cargo vector) with its optimal valuation. -/
theorem c1_exact_solver_coverage_and_capacity_witness :
    (∀ j : Fin 5, ∃! i : Fin ([14] : List ℕ).length,
        (fun (_ : Fin ([14] : List ℕ).length) (_ : Fin 5) => true) i j = true) ∧
    (∀ i : Fin ([14] : List ℕ).length,
        loadOf ![2, 1, 3, 2, 6] ([14] : List ℕ).length
          (fun _ _ => true) i ≤ ([14] : List ℕ).get i) :=
  c1_exact_solver_coverage_and_capacity ![2, 1, 3, 2, 6] [14]
    (fun _ _ => true) (by decide)

/-- C3: the assignment returned by the exact solver minimizes the total
depot distance stated by the specification (the sum over assigned
vehicle-city pairs of the depot-to-city distance): no feasible valuation
has a strictly smaller such sum. -/
theorem c3_exact_solver_minimizes_depot_distance
    (cargo : Fin 5 → ℕ) (caps : List ℕ) (x : Fin caps.length → Fin 5 → Bool)
    (hx : IsOptimal cargo caps x) :
    ∀ y : Fin caps.length → Fin 5 → Bool, Feasible cargo caps y →
      specAssignedDistance caps.length x ≤ specAssignedDistance caps.length y := by
  intro y hy
  rw [specAssignedDistance_eq_objective, specAssignedDistance_eq_objective]
  exact hx.2 y hy

/-- C3 witness: the optimal valuation of the concrete one-vehicle
instance minimizes the specification objective, instantiated at a
concrete feasible competitor. -/
theorem c3_exact_solver_minimizes_depot_distance_witness :
    specAssignedDistance ([14] : List ℕ).length
        (fun (_ : Fin ([14] : List ℕ).length) (_ : Fin 5) => true) ≤
      specAssignedDistance ([14] : List ℕ).length (fun _ _ => true) :=
  c3_exact_solver_minimizes_depot_distance ![2, 1, 3, 2, 6] [14]
    (fun _ _ => true) (by decide) (fun _ _ => true) (by decide)

/-- C10: the cargo-exactness constraint family of the embedded program is
implied by the coverage family, so the program with the family and the
program without it have the same feasible valuations and the same optimal
valuations (hence the same optimal objective value). -/
theorem c10_cargo_exact_constraints_redundant
    (cargo : Fin 5 → ℕ) (caps : List ℕ) :
    (∀ x : Fin caps.length → Fin 5 → Bool,
        Feasible cargo caps x ↔ FeasibleNoExact cargo caps x) ∧
    (∀ x : Fin caps.length → Fin 5 → Bool,
        IsOptimal cargo caps x ↔
          (FeasibleNoExact cargo caps x ∧
            ∀ y : Fin caps.length → Fin 5 → Bool, FeasibleNoExact cargo caps y →
              objective caps.length x ≤ objective caps.length y)) := by
  have hfe : ∀ x : Fin caps.length → Fin 5 → Bool,
      Feasible cargo caps x ↔ FeasibleNoExact cargo caps x := by
    intro x
    constructor
    · rintro ⟨h1, h2, _⟩; exact ⟨h1, h2⟩
    · rintro ⟨h1, h2⟩; exact ⟨h1, h2, coverage_imp_cargoExact cargo h1⟩
  refine ⟨hfe, fun x => ?_⟩
  constructor
  · rintro ⟨hx, hopt⟩
    exact ⟨(hfe x).mp hx, fun y hy => hopt y ((hfe y).mpr hy)⟩
  · rintro ⟨hx, hopt⟩
    exact ⟨(hfe x).mpr hx, fun y hy => hopt y ((hfe y).mp hy)⟩

theorem buildResult_ends_in_km (cargo : Fin 5 → ℕ) (nv : ℕ)
    (x : Fin nv → Fin 5 → Bool) :
    " km".data <:+ (buildResult cargo nv x).data := by
  unfold buildResult
  simp only [String.data_append, ← List.append_assoc]
  exact List.suffix_append _ _

/-- C6: two runs of the exact solver on the identical instance (the same
cargo vector and the same parsed capacity list, each run returning an
optimal feasible valuation) report the same total distance, the sum
accumulated by the result loop. -/
theorem c6_exact_solver_total_distance_idempotent
    (cargo : Fin 5 → ℕ) (caps : List ℕ)
    (x₁ x₂ : Fin caps.length → Fin 5 → Bool)
    (h₁ : IsOptimal cargo caps x₁) (h₂ : IsOptimal cargo caps x₂) :
    reportedTotalDistance caps.length x₁ = reportedTotalDistance caps.length x₂ := by
  rw [reportedTotalDistance_eq_objective, reportedTotalDistance_eq_objective]
  exact le_antisymm (h₁.2 x₂ h₂.1) (h₂.2 x₁ h₁.1)

/-- C6 witness: the concrete one-vehicle instance, solved twice. -/
theorem c6_exact_solver_total_distance_idempotent_witness :
    reportedTotalDistance ([14] : List ℕ).length
        (fun (_ : Fin ([14] : List ℕ).length) (_ : Fin 5) => true) =
      reportedTotalDistance ([14] : List ℕ).length (fun _ _ => true) :=
  c6_exact_solver_total_distance_idempotent ![2, 1, 3, 2, 6] [14]
    (fun _ _ => true) (fun _ _ => true) (by decide) (by decide)

/-- C9: the output of optimize_pulp does not depend on the priorities
argument (src/cargo_optimization_pulp.py) nor on the Priority column of
the dataframe (src/new_look.py): two calls differing only there return
the identical result. -/
theorem c9_priorities_independence
    (solver : PulpSolver) (cargo : Fin 5 → ℕ) (p₁ p₂ : Fin 5 → ℤ)
    (capStr : String) (df : Fin 5 → String × ℕ × ℤ) (q : Fin 5 → ℤ) :
    optimize_pulp cargo p₁ capStr solver = optimize_pulp cargo p₂ capStr solver ∧
    optimize_pulp_df (withPriorities df q) capStr solver =
      optimize_pulp_df df capStr solver :=
  ⟨rfl, rfl⟩

/-- C2: on the concrete instance whose largest demand (6) exceeds every
vehicle capacity (a single vehicle of capacity 3) the embedded program is
infeasible, yet optimize_pulp still returns an ordinary
routes-plus-total-distance string (ending in km) for every solver
outcome: the code never inspects prob.status and has no infeasibility
return path. -/
theorem c2_infeasible_instance_still_ordinary_result :
    (¬ ∃ x : Fin ([3] : List ℕ).length → Fin 5 → Bool,
        Feasible ![2, 1, 3, 2, 6] [3] x) ∧
    (∀ (p : Fin 5 → ℤ) (solver : PulpSolver), ∃ s,
        optimize_pulp ![2, 1, 3, 2, 6] p "3" solver = some s ∧
          " km".data <:+ s.data) := by
  refine ⟨by decide, fun p solver => ?_⟩
  refine ⟨buildResult ![2, 1, 3, 2, 6] ([3] : List ℕ).length
    (solver ![2, 1, 3, 2, 6] [3]), ?_, buildResult_ends_in_km _ _ _⟩
  have hparse : parseCaps "3" = some [3] := rfl
  unfold optimize_pulp
  rw [hparse]
  rfl

theorem cumul_determined (dem : Fin 5 → ℤ) :
    ∀ (ns : List (Fin 5)) (c : ℤ) (cum : List ℤ),
      cum.length = ns.length + 1 →
      cum.getD 0 0 = c →
      (∀ k, k < ns.length → cum.getD (k + 1) 0 = cum.getD k 0 + dem (ns.getD k 0)) →
      cum = List.scanl (fun a n => a + dem n) c ns := by
  intro ns
  induction ns with
  | nil =>
    intro c cum hlen h0 _
    cases cum with
    | nil => simp at hlen
    | cons a t =>
      cases t with
      | nil => simp only [List.getD_cons_zero] at h0; simp [h0]
      | cons b t2 => simp at hlen
  | cons n ns ih =>
    intro c cum hlen h0 hstep
    cases cum with
    | nil => simp at hlen
    | cons a t =>
      have ha : a = c := by simpa using h0
      have hlt : t.length = ns.length + 1 := by simpa using hlen
      have h1 : t.getD 0 0 = c + dem n := by
        have := hstep 0 (Nat.succ_pos _)
        simpa [ha] using this
      have hsteps : ∀ k, k < ns.length →
          t.getD (k + 1) 0 = t.getD k 0 + dem (ns.getD k 0) := by
        intro k hk
        have := hstep (k + 1) (by simpa using Nat.succ_lt_succ hk)
        simpa using this
      have ht := ih (c + dem n) t hlt h1 hsteps
      rw [List.scanl_cons]
      simp [ha, ht]

/-- C4: any route of a solution accepted by the Capacity dimension has
its cumul values determined by the start value and the demands along the
route, and every one of these load values lies between 0 and the vehicle
capacity. -/
theorem c4_route_load_trace_bounded (start cap : ℤ) (dem : Fin 5 → ℤ)
    (r : VehicleRoute) (h : DimValid start cap dem r) :
    r.cumul = loadTrace start dem r.stops ∧
    ∀ c ∈ loadTrace start dem r.stops, 0 ≤ c ∧ c ≤ cap := by
  obtain ⟨hlen, h0, hstep, hbound⟩ := h
  have heq : r.cumul = loadTrace start dem r.stops := by
    apply cumul_determined dem ((0 : Fin 5) :: r.stops) start r.cumul
    · simpa using hlen
    · exact h0
    · simpa using hstep
  exact ⟨heq, fun c hc => hbound c (heq ▸ hc)⟩

/-- C4 witness: the delivery route Durban, Johannesburg, Pretoria of a
vehicle of capacity 5 under the default fleet demands, with the cumul
values the dimension forces. -/
theorem c4_route_load_trace_bounded_witness :
    (⟨[1, 2], [5, 5, 4, 1]⟩ : VehicleRoute).cumul =
        loadTrace 5 (fleetDemands ![0, 1, 3, 2, 4])
          (⟨[1, 2], [5, 5, 4, 1]⟩ : VehicleRoute).stops ∧
    ∀ c ∈ loadTrace 5 (fleetDemands ![0, 1, 3, 2, 4])
        (⟨[1, 2], [5, 5, 4, 1]⟩ : VehicleRoute).stops, 0 ≤ c ∧ c ≤ 5 :=
  c4_route_load_trace_bounded 5 5 (fleetDemands ![0, 1, 3, 2, 4])
    ⟨[1, 2], [5, 5, 4, 1]⟩ (by decide)

theorem routeFuelCode_eq_arcSum (lf : ℚ) (dem : Fin 5 → ℤ) :
    ∀ (stops : List (Fin 5)) (prev : Fin 5) (c : ℤ),
      routeFuelCode lf dem prev c stops =
        (((prev :: stops).zip ((stops ++ [(0 : Fin 5)]).zip
            (List.scanl (fun a n => a + dem n) c (prev :: stops)))).map
          (fun a => fuelArc lf (distance_matrix a.1 a.2.1) a.2.2)).sum := by
  intro stops
  induction stops with
  | nil => intro prev c; simp [routeFuelCode, List.scanl_cons, List.scanl_nil]
  | cons n rest ih =>
    intro prev c
    simp only [routeFuelCode, List.scanl_cons, List.singleton_append,
      List.cons_append, List.zip_cons_cons, List.map_cons, List.sum_cons]
    rw [ih n (c + dem prev)]
    simp [List.scanl_cons]

/-- C5 counterexample: on the route Durban, Johannesburg, Pretoria with
the default fleet demands, capacity 5 and load factor 1, the fuel total
computed by print_solution differs from the total prescribed by the
claim (load before the delivery at the destination of each arc): the
code charges 7304 where the claim prescribes 5281. -/
theorem c5_fuel_before_destination_counterexample :
    routeFuelCode 1 (fleetDemands ![0, 1, 3, 2, 4]) 0 5 [1, 2] ≠
      routeFuelClaim 1 (fleetDemands ![0, 1, 3, 2, 4]) 0 5 [1, 2] := by
  have hcode : routeFuelCode 1 (fleetDemands ![0, 1, 3, 2, 4]) 0 5 [1, 2] = 7304 := by
    norm_num [routeFuelCode, fuelArc, distance_matrix,
      Matrix.cons_val_zero, Matrix.cons_val_one, Matrix.head_cons,
      show fleetDemands ![0, 1, 3, 2, 4] 0 = 0 from by decide,
      show fleetDemands ![0, 1, 3, 2, 4] 1 = -1 from by decide,
      show fleetDemands ![0, 1, 3, 2, 4] 2 = -3 from by decide]
  have hclaim : routeFuelClaim 1 (fleetDemands ![0, 1, 3, 2, 4]) 0 5 [1, 2] = 5281 := by
    norm_num [routeFuelClaim, fuelArc, distance_matrix,
      Matrix.cons_val_zero, Matrix.cons_val_one, Matrix.head_cons,
      show fleetDemands ![0, 1, 3, 2, 4] 0 = 0 from by decide,
      show fleetDemands ![0, 1, 3, 2, 4] 1 = -1 from by decide,
      show fleetDemands ![0, 1, 3, 2, 4] 2 = -3 from by decide]
  rw [hcode, hclaim]
  norm_num

/-- C5 amended: the fuel total computed by print_solution equals the sum
over the arcs of the route of distance times (1 + loadFactor times
currentLoad), where currentLoad is the capacity-dimension cumul at the
SOURCE stop of the arc (the load before the delivery at the source is
applied, that is the load observed on the previous arc), and the sum
includes the final return arc to the depot. -/
theorem c5_fuel_charged_with_source_cumul
    (lf : ℚ) (dem : Fin 5 → ℤ) (start : ℤ) (stops : List (Fin 5)) :
    routeFuelCode lf dem 0 start stops = routeFuelArcSum lf dem start stops :=
  routeFuelCode_eq_arcSum lf dem stops 0 start

/-- C7 counterexample: the exception path of solve_vrp returns exactly
the generic message the claim rules out. -/
theorem c7_generic_error_counterexample :
    solve_vrp_result (SolveOutcome.pythonError
        "could not convert string to float: abc") =
      "An error occurred: could not convert string to float: abc" := rfl

/-- C7 amended: every failure path of solve_vrp (in both apps) returns a
fixed generic string carrying no constraint, city or vehicle identity:
the no-solution branch returns a constant sentence, and the exception
branch returns the exception message prefixed by the words the claim
forbids. -/
theorem c7_failure_paths_generic_messages (m : String) :
    solve_vrp_result SolveOutcome.noSolution =
        "No solution found. Please check the inputs and constraints." ∧
    solve_vrp_result (SolveOutcome.pythonError m) = "An error occurred: " ++ m ∧
    solve_vrp_result_single SolveOutcome.noSolution =
        "No solution found. Please ensure the total demands do not exceed the vehicle capacity." ∧
    solve_vrp_result_single (SolveOutcome.pythonError m) = "An error occurred: " ++ m :=
  ⟨rfl, rfl, rfl, rfl⟩

namespace Heur

theorem count_set : ∀ (l : List ℕ) (n : ℕ) (h : n < l.length) (v x : ℕ),
    (l.set n v).count x + (if l.get ⟨n, h⟩ = x then 1 else 0)
      = l.count x + (if v = x then 1 else 0) := by
  intro l
  induction l with
  | nil => intro n h; simp at h
  | cons a t ih =>
    intro n h v x
    cases n with
    | zero =>
      simp only [List.set_cons_zero, List.count_cons, List.get_eq_getElem,
        List.getElem_cons_zero, beq_iff_eq]
      split_ifs <;> omega
    | succ m =>
      have hm : m < t.length := by simpa using h
      have ihm := ih m hm v x
      simp only [List.set_cons_succ, List.count_cons, List.get_eq_getElem,
        List.getElem_cons_succ, beq_iff_eq]
      simp only [List.get_eq_getElem] at ihm
      split_ifs at ihm ⊢ <;> omega

theorem swapPositions_perm (l : List ℕ) (a b : ℕ) : (swapPositions l a b).Perm l := by
  unfold swapPositions
  split
  next h =>
    rw [List.perm_iff_count]
    intro x
    have h1 := count_set l a h.1 (l.get ⟨b, h.2⟩) x
    have hlen : b < (l.set a (l.get ⟨b, h.2⟩)).length := by simpa using h.2
    have h2 := count_set (l.set a (l.get ⟨b, h.2⟩)) b hlen (l.get ⟨a, h.1⟩) x
    have hgb : (l.set a (l.get ⟨b, h.2⟩)).get ⟨b, hlen⟩ = l.get ⟨b, h.2⟩ := by
      simp only [List.get_eq_getElem, List.getElem_set]
      split <;> rfl
    rw [hgb] at h2
    split_ifs at h1 h2 <;> omega
  next => exact List.Perm.refl l

theorem mutateOnce_perm (s : ℕ) (l : List ℕ) : (mutateOnce s l).Perm l :=
  swapPositions_perm l _ _

theorem maybeMutate_perm (rate : ℚ) (s : ℕ) (l : List ℕ) :
    (maybeMutate rate s l).Perm l := by
  unfold maybeMutate
  split
  · exact mutateOnce_perm _ l
  · exact List.Perm.refl l

theorem initPopulation_mem_perm (base : List ℕ) :
    ∀ (n s : ℕ) (ind : List ℕ), ind ∈ initPopulation n s base → ind.Perm base := by
  intro n
  induction n with
  | zero => intro s ind h; simp [initPopulation] at h
  | succ m ih =>
    intro s ind h
    rcases List.mem_cons.mp h with heq | htail
    · rw [heq]; exact mutateOnce_perm s base
    · exact ih (lcg s) ind htail

theorem orderCrossover_perm (base : List ℕ) (s : ℕ) {p1 p2 : List ℕ}
    (h1 : p1.Perm base) (h2 : p2.Perm base) : (orderCrossover s p1 p2).Perm base := by
  unfold orderCrossover
  have hc : ∀ x ∈ p1.take (lcg s % (p1.length + 1)),
      (p1.take (lcg s % (p1.length + 1))).count x ≤ p2.count x := by
    intro x _
    calc (p1.take (lcg s % (p1.length + 1))).count x
        ≤ p1.count x := (List.take_sublist _ p1).count_le x
      _ = base.count x := List.perm_iff_count.mp h1 x
      _ = p2.count x := (List.perm_iff_count.mp h2 x).symm
  exact (List.subperm_append_diff_self_of_count_le hc).trans h2

theorem getD_mem_or_eq (pool : List (List ℕ)) (i : ℕ) (d : List ℕ) :
    pool.getD i d ∈ pool ∨ pool.getD i d = d := by
  by_cases h : i < pool.length
  · left
    rw [List.getD_eq_getElem pool d h]
    exact List.getElem_mem h
  · right
    exact List.getD_eq_default pool d (Nat.le_of_not_lt h)

theorem offspringOf_perm (base : List ℕ) (pop : List (List ℕ))
    (crossRate mutRate : ℚ) (s : ℕ) {p1 : List ℕ}
    (hpop : ∀ p ∈ pop, p.Perm base) (hp1 : p1.Perm base) :
    (offspringOf pop crossRate mutRate s p1).Perm base := by
  have hp2 : (pop.getD (lcg s % pop.length) p1).Perm base := by
    rcases getD_mem_or_eq pop (lcg s % pop.length) p1 with h | h
    · exact hpop _ h
    · rw [h]; exact hp1
  have hchild : (if ((lcg (lcg s) % 1000 : ℕ) : ℚ) < crossRate * 1000
      then orderCrossover (lcg (lcg (lcg s))) p1 (pop.getD (lcg s % pop.length) p1)
      else p1).Perm base := by
    split
    · exact orderCrossover_perm base _ hp1 hp2
    · exact hp1
  exact (maybeMutate_perm mutRate _ _).trans hchild

theorem offspringList_mem_perm (base : List ℕ) (pop : List (List ℕ))
    (crossRate mutRate : ℚ) (hpop : ∀ p ∈ pop, p.Perm base) :
    ∀ (parents : List (List ℕ)) (s : ℕ), (∀ p ∈ parents, p.Perm base) →
      ∀ ind ∈ offspringList pop crossRate mutRate s parents, ind.Perm base := by
  intro parents
  induction parents with
  | nil => intro s _ ind h; simp [offspringList] at h
  | cons p rest ih =>
    intro s hall ind h
    rcases List.mem_cons.mp h with heq | htail
    · rw [heq]
      exact offspringOf_perm base pop crossRate mutRate s hpop
        (hall p (List.mem_cons_self p rest))
    · exact ih (lcg s) (fun q hq => hall q (List.mem_cons_of_mem p hq)) ind htail

theorem tournamentSample_mem (pool : List (List ℕ)) (hne : pool ≠ []) :
    ∀ (t s : ℕ), ∀ ind ∈ tournamentSample pool t s, ind ∈ pool := by
  intro t
  induction t with
  | zero => intro s ind h; simp [tournamentSample] at h
  | succ m ih =>
    intro s ind h
    rcases List.mem_cons.mp h with heq | htail
    · have hlt : lcg s % pool.length < pool.length :=
        Nat.mod_lt _ (List.length_pos.mpr hne)
      rw [heq, List.getD_eq_getElem pool [] hlt]
      exact List.getElem_mem hlt
    · exact ih (lcg s) ind htail

theorem tournament_mem (fit : List ℕ → ℕ) (pool : List (List ℕ)) (s : ℕ)
    (hne : pool ≠ []) : tournament fit pool s ∈ pool := by
  unfold tournament
  rcases hm : (tournamentSample pool tournamentSize s).argmin fit with _ | m
  · cases pool with
    | nil => exact absurd rfl hne
    | cons a rest => exact List.mem_cons_self a rest
  · simp only [Option.getD_some]
    exact tournamentSample_mem pool hne tournamentSize s m (List.argmin_mem hm)

theorem selectSurvivors_mem_perm (fit : List ℕ → ℕ) (base : List ℕ)
    (pool : List (List ℕ)) (hne : pool ≠ [])
    (hpool : ∀ p ∈ pool, p.Perm base) :
    ∀ (n s : ℕ), ∀ ind ∈ selectSurvivors fit n s pool, ind.Perm base := by
  intro n
  induction n with
  | zero => intro s ind h; simp [selectSurvivors] at h
  | succ m ih =>
    intro s ind h
    rcases List.mem_cons.mp h with heq | htail
    · rw [heq]
      exact hpool _ (tournament_mem fit pool s hne)
    · exact ih (lcg s) ind htail

theorem nextGeneration_mem_perm (fit : List ℕ → ℕ) (crossRate mutRate : ℚ)
    (base : List ℕ) (s : ℕ) (pop : List (List ℕ))
    (hpop : ∀ p ∈ pop, p.Perm base) :
    ∀ ind ∈ nextGeneration fit crossRate mutRate s pop, ind.Perm base := by
  intro ind h
  unfold nextGeneration at h
  cases pop with
  | nil => simp [selectSurvivors] at h
  | cons a rest =>
    have hne : (a :: rest) ++
        offspringList (a :: rest) crossRate mutRate (lcg (lcg s)) (a :: rest) ≠ [] := by
      simp
    have hall : ∀ p ∈ (a :: rest) ++
        offspringList (a :: rest) crossRate mutRate (lcg (lcg s)) (a :: rest),
        p.Perm base := by
      intro p hp
      rcases List.mem_append.mp hp with hl | hr
      · exact hpop p hl
      · exact offspringList_mem_perm base (a :: rest) crossRate mutRate hpop
          (a :: rest) (lcg (lcg s)) hpop p hr
    exact selectSurvivors_mem_perm fit base _ hne hall (a :: rest).length (lcg s) ind h

theorem betterBest_perm (fit : List ℕ → ℕ) (base best : List ℕ)
    (pop : List (List ℕ)) (hbest : best.Perm base)
    (hpop : ∀ p ∈ pop, p.Perm base) :
    (betterBest fit best (pop.argmin fit)).Perm base := by
  rcases hm : pop.argmin fit with _ | m
  · simp only [betterBest]
    exact hbest
  · simp only [betterBest]
    split
    · exact hpop m (List.argmin_mem hm)
    · exact hbest

theorem evolveBest_perm (fit : List ℕ → ℕ) (crossRate mutRate : ℚ) (base : List ℕ) :
    ∀ (g s : ℕ) (pop : List (List ℕ)) (best : List ℕ),
      (∀ p ∈ pop, p.Perm base) → best.Perm base →
      (evolveBest fit crossRate mutRate g s pop best).Perm base := by
  intro g
  induction g with
  | zero => intro s pop best _ hbest; exact hbest
  | succ m ih =>
    intro s pop best hpop hbest
    exact ih (lcg s) (nextGeneration fit crossRate mutRate s pop)
      (betterBest fit best ((nextGeneration fit crossRate mutRate s pop).argmin fit))
      (nextGeneration_mem_perm fit crossRate mutRate base s pop hpop)
      (betterBest_perm fit base best (nextGeneration fit crossRate mutRate s pop)
        hbest (nextGeneration_mem_perm fit crossRate mutRate base s pop hpop))

theorem argmin_getD_perm (fit : List ℕ → ℕ) (base : List ℕ)
    (pop : List (List ℕ)) (hpop : ∀ p ∈ pop, p.Perm base) :
    ((pop.argmin fit).getD base).Perm base := by
  rcases hm : pop.argmin fit with _ | m
  · exact List.Perm.refl base
  · simp only [Option.getD_some]
    exact hpop m (List.argmin_mem hm)

theorem fillVehicle_append (demand : ℕ → ℕ) (cap : ℕ) :
    ∀ (cities : List ℕ) (load : ℕ),
      (fillVehicle demand cap load cities).1 ++ (fillVehicle demand cap load cities).2
        = cities := by
  intro cities
  induction cities with
  | nil => intro load; rfl
  | cons c rest ih =>
    intro load
    by_cases hfit : load + demand c ≤ cap
    · simp [fillVehicle, hfit, ih]
    · simp [fillVehicle, hfit]

theorem decodeGreedy_flatten_append (demand : ℕ → ℕ) :
    ∀ (caps cities : List ℕ),
      (decodeGreedy demand caps cities).1.flatten ++ (decodeGreedy demand caps cities).2
        = cities := by
  intro caps
  induction caps with
  | nil => intro cities; simp [decodeGreedy]
  | cons cap caps ih =>
    intro cities
    simp only [decodeGreedy, List.flatten_cons, List.append_assoc, ih]
    exact fillVehicle_append demand cap cities 0

end Heur

/-- C8: the metaheuristic solver (modelled from the spec, absent from
src/) is a total function: for every instance, every parameter choice
and every seed it returns a solution, and the cities of its routes
together with its unserved annotation are exactly a permutation of the
instance cities, so incomplete coverage is reported in the unserved set
rather than by a failure. -/
theorem c8_heuristic_total_with_unserved_annotation
    (inst : HeurInstance) (populationSize generations : ℕ)
    (crossoverRate mutationRate : ℚ) (seed : ℕ) :
    ((solveHeuristic inst populationSize generations
        crossoverRate mutationRate seed).routes.flatten ++
      (solveHeuristic inst populationSize generations
        crossoverRate mutationRate seed).unserved).Perm inst.cities := by
  unfold solveHeuristic
  rw [decodeGreedy_flatten_append]
  exact evolveBest_perm (fitness inst) crossoverRate mutationRate inst.cities
    generations (lcg seed) (initPopulation populationSize seed inst.cities)
    (((initPopulation populationSize seed inst.cities).argmin
        (fitness inst)).getD inst.cities)
    (fun p hp => initPopulation_mem_perm inst.cities populationSize seed p hp)
    (argmin_getD_perm (fitness inst) inst.cities
      (initPopulation populationSize seed inst.cities)
      (fun p hp => initPopulation_mem_perm inst.cities populationSize seed p hp))
